import Mathlib

/-!
Shallow embedding of the two annotation overlays of the repository
(`src/TextboxOverlay.tsx` and `src/ScribbleOverlay.tsx`) and proofs of the
behavioural claims about them.

Modelling conventions:
* React `useState` cells become fields of an explicit state record; an event
  handler becomes a function from the render snapshot of that record to the
  next record.  Inside one handler, successive `setX(value)` calls are
  last-value-wins on the same snapshot (React batching); this is made explicit
  with `SetOp`/`applyOps` where a handler issues more than one set.
* Mutable `useRef` cells (`isMouseDown`, `didDrawInStroke`, `lastDrawnState`)
  are fields updated synchronously inside the handler body.
* The `useEffect` on `[isDrawing]` (save-after-stroke) runs after an event
  whenever that event changed `isDrawing`, which matches React's
  render-then-effect ordering.
* Machine pixels: the canvas raster is modelled as the list of painted stroke
  paths (`content`); `getImageData` reads it whole, `drawImage`/`putImageData`
  write it whole, `clearRect` over the full canvas empties it.
* Nullable DOM references (`canvasRef.current`, `parentElement`, a failed
  `getContext`) are modelled by `Bool`/`Option` guards mirroring the source's
  early returns.
-/

namespace TextboxOverlay

/-- The `Textbox` interface of `TextboxOverlay.tsx` (lines 3-9). -/
structure Textbox where
  id : String
  x : Int
  y : Int
  text : String
  isEditing : Bool
deriving Repr, DecidableEq

/-- The drag state `{ id, startX, startY } | null` (line 24). -/
structure DragState where
  id : String
  startX : Int
  startY : Int
deriving Repr, DecidableEq

/-- Component state: the `textboxes` collection, the `dragState` cell and the
externally owned `isTextboxMode` flag. -/
structure TbState where
  textboxes : List Textbox
  dragState : Option DragState
  isTextboxMode : Bool
deriving Repr, DecidableEq

/-- One `setTextboxes` call: either a plain value (replaces the state) or a
functional updater (applied to the current state). -/
inductive SetOp (α : Type) where
  | val (a : α)
  | upd (f : α → α)

/-- React semantics of a batch of set calls issued by one event handler:
processed in order, a plain value replaces whatever came before it. -/
def applyOps {α : Type} (init : α) (ops : List (SetOp α)) : α :=
  ops.foldl (fun s op => match op with | .val a => a | .upd f => f s) init

/-- `handleMouseMove` (lines 67-89): while a drag is active, add the delta
since the last recorded pointer position to the dragged box and record the new
pointer position. -/
def handleMouseMove (clientX clientY : Int) (s : TbState) : TbState :=
  match s.dragState with
  | none => s
  | some d =>
    let dx := clientX - d.startX
    let dy := clientY - d.startY
    { s with
      textboxes := s.textboxes.map fun tb =>
        if tb.id = d.id then { tb with x := tb.x + dx, y := tb.y + dy } else tb
      dragState := some { d with startX := clientX, startY := clientY } }

/-- `handleMouseUp` (lines 92-94): clear the drag state. -/
def handleMouseUp (s : TbState) : TbState :=
  { s with dragState := none }

/-- The box `onMouseDown` handler (lines 172-179): record (box id, pointer X,
pointer Y) as the drag state. -/
def boxMouseDown (boxId : String) (clientX clientY : Int) (s : TbState) : TbState :=
  { s with dragState := some { id := boxId, startX := clientX, startY := clientY } }

/-- The delete button's `onMouseDown` (lines 241-244): only
`preventDefault`/`stopPropagation`, so no state change and no drag begins. -/
def deleteButtonMouseDown (s : TbState) : TbState := s

/-- Id assigned to a new textbox: `` `textbox-${Date.now()}` `` (line 113). -/
def mkTextboxId (now : Nat) : String :=
  "textbox-" ++ Nat.repr now

/-- `handleOverlayClick` (lines 109-122): in textbox mode, append one new
editing textbox at the click's page coordinates and leave textbox mode. -/
def handleOverlayClick (clientX clientY scrollX scrollY : Int) (now : Nat)
    (s : TbState) : TbState :=
  if !s.isTextboxMode then s
  else
    { s with
      textboxes := s.textboxes ++
        [{ id := mkTextboxId now
           x := clientX + scrollX
           y := clientY + scrollY
           text := ""
           isEditing := true }]
      isTextboxMode := false }

/-- `handleTextChange` (lines 125-129): store the text and leave editing. -/
def handleTextChange (boxId : String) (text : String) (s : TbState) : TbState :=
  { s with
    textboxes := s.textboxes.map fun tb =>
      if tb.id = boxId then { tb with text := text, isEditing := false } else tb }

/-- The textarea `onChange` handler (lines 203-207): store the field's value
as the box's text, touching nothing else. -/
def textareaChange (boxId : String) (value : String) (s : TbState) : TbState :=
  { s with
    textboxes := s.textboxes.map fun tb =>
      if tb.id = boxId then { tb with text := value } else tb }

/-- What the `onBlur` handler can see of `e.relatedTarget`: whether it matches
the CSS selector `'button'`, and whether it is this overlay's delete control
(the latter is what the spec speaks about; the code only consults the
former). -/
structure BlurTarget where
  matchesButton : Bool
  isDeleteControl : Bool
deriving Repr, DecidableEq

/-- `e.relatedTarget?.matches('button')` with optional chaining: a null
related target yields false. -/
def blurTargetMatchesButton (rt : Option BlurTarget) : Bool :=
  match rt with
  | some t => t.matchesButton
  | none => false

/-- The textarea `onBlur` handler (lines 208-212): commit unless
`e.relatedTarget?.matches('button')` holds (a null related target commits). -/
def textareaBlur (boxId : String) (fieldValue : String) (rt : Option BlurTarget)
    (s : TbState) : TbState :=
  if blurTargetMatchesButton rt then s
  else handleTextChange boxId fieldValue s

/-- The textarea `onKeyDown` handler on Enter (lines 213-221).  Without Shift
it calls `handleTextChange` and then issues a second `setTextboxes` computed
from the same render snapshot, which replaces the first (last value wins).
With Shift it does nothing (the browser inserts a newline, later reported via
`onChange`). -/
def textareaEnterKeyDown (boxId : String) (fieldValue : String) (shiftKey : Bool)
    (s : TbState) : TbState :=
  if shiftKey then s
  else
    { s with
      textboxes :=
        applyOps s.textboxes
          [SetOp.val (handleTextChange boxId fieldValue s).textboxes,
           SetOp.val (s.textboxes.map fun tb =>
             if tb.id = boxId then { tb with isEditing := false } else tb)] }

/-- The delete button `onClick` handler (lines 236-240): filter the box out. -/
def deleteBoxClick (boxId : String) (s : TbState) : TbState :=
  { s with textboxes := s.textboxes.filter fun tb => tb.id ≠ boxId }

/-- The box `onDoubleClick` handler (lines 180-185): re-enter editing. -/
def boxDoubleClick (boxId : String) (s : TbState) : TbState :=
  { s with
    textboxes := s.textboxes.map fun tb =>
      if tb.id = boxId then { tb with isEditing := true } else tb }

/-- Whether the render shows the delete control for a box: the JSX renders it
only inside the `textbox.isEditing ?` branch (lines 198-266); the non-editing
branch (lines 267-275) renders plain text with no delete control. -/
def rendersDeleteControl (tb : Textbox) : Bool :=
  tb.isEditing

/-- The Tab+T / Escape keydown handler (lines 31-49), restricted to its state
effect: Tab+T toggles textbox mode, Escape while in textbox mode leaves it. -/
def textboxModeToggle (s : TbState) : TbState :=
  { s with isTextboxMode := !s.isTextboxMode }

/-- Escape branch of the same handler. -/
def textboxModeEscape (s : TbState) : TbState :=
  if s.isTextboxMode then { s with isTextboxMode := false } else s

end TextboxOverlay

namespace ScribbleOverlay

/-- A point on the canvas (coordinates relative to the canvas rect). -/
structure Point where
  x : Int
  y : Int
deriving Repr, DecidableEq

/-- `ctx.globalCompositeOperation`: `'source-over'` (draw) or
`'destination-out'` (erase). -/
inductive CompOp where
  | sourceOver
  | destinationOut
deriving Repr, DecidableEq

/-- Component state of `ScribbleOverlay.tsx`: the `useState` cells, the
`useRef` cells, and the canvas/2D-context content.

The raster is `content`, the list of painted stroke paths; `ctxCurrent` is the
context's current path (begun by `beginPath`/`moveTo`) and `ctxPainted` says
whether that path has already been painted by a `stroke()` call (in which case
further `lineTo`+`stroke()` extends the last painted path rather than adding a
new one). `canvasPresent` models whether `canvasRef.current` is non-null. -/
structure ScState where
  isScribbleMode : Bool
  isDrawing : Bool
  isEraser : Bool
  isSpaceHeld : Bool
  backgroundState : Bool
  strokeColor : String
  displayIntroText : Bool
  isMouseDown : Bool
  didDrawInStroke : Bool
  lastDrawnState : Option (List (List Point))
  canvasPresent : Bool
  content : List (List Point)
  canvasWidth : Nat
  canvasHeight : Nat
  comp : CompOp
  lineWidth : Nat
  ctxStrokeStyle : String
  ctxCurrent : Option (List Point)
  ctxPainted : Bool
deriving Repr, DecidableEq

/-- `saveCanvasState` (lines 27-33): snapshot the whole raster via
`getImageData` into `lastDrawnState`. -/
def saveCanvasState (st : ScState) : ScState :=
  if !st.canvasPresent then st
  else { st with lastDrawnState := some st.content }

/-- The `useEffect` on `[isDrawing]` (lines 36-41): after a render in which
`isDrawing` is false and `didDrawInStroke.current` is still true, save the
canvas state and clear the ref. -/
def saveAfterStrokeEffect (st : ScState) : ScState :=
  if !st.isDrawing && st.didDrawInStroke then
    { saveCanvasState st with didDrawInStroke := false }
  else st

/-- `stopDrawing` (lines 134-149): `closePath`, reset compositing to
`source-over`, clear the drawing flag and both refs. -/
def stopDrawing (st : ScState) : ScState :=
  if !st.isDrawing then st
  else if !st.canvasPresent then st
  else
    { st with
      comp := CompOp.sourceOver
      isDrawing := false
      isMouseDown := false
      didDrawInStroke := false }

/-- `startDrawing` (lines 226-256): in scribble mode, compute the position
relative to the canvas rect, set the drawing flags, `beginPath`+`moveTo`, and
select compositing mode and line width from the current tool. -/
def startDrawing (clientX clientY rectLeft rectTop : Int) (st : ScState) : ScState :=
  if !st.isScribbleMode then st
  else if !st.canvasPresent then st
  else
    let x := clientX - rectLeft
    let y := clientY - rectTop
    let st := { st with
      displayIntroText := false
      isDrawing := true
      isMouseDown := true
      didDrawInStroke := false
      ctxCurrent := some [⟨x, y⟩]
      ctxPainted := false }
    if st.isEraser then
      { st with comp := CompOp.destinationOut, lineWidth := 20 }
    else
      { st with comp := CompOp.sourceOver, lineWidth := 2,
                ctxStrokeStyle := st.strokeColor }

/-- `ctx.lineTo(x, y); ctx.stroke()` inside `draw`: extend the current path
and paint it.  The first `stroke()` of a path adds it to the raster; later
ones repaint the same (extended) path, so the raster keeps one entry for it. -/
def lineToStroke (p : Point) (st : ScState) : ScState :=
  match st.ctxCurrent with
  | none => { st with ctxCurrent := some [p], didDrawInStroke := true }
  | some ps =>
    let ps' := ps ++ [p]
    if st.ctxPainted then
      { st with ctxCurrent := some ps', content := st.content.dropLast ++ [ps'],
                didDrawInStroke := true }
    else
      { st with ctxCurrent := some ps', ctxPainted := true,
                content := st.content ++ [ps'], didDrawInStroke := true }

/-- `draw` (lines 258-285): in scribble mode, either implicitly start a stroke
(`shouldStartStroke`) or, while drawing with space or the pointer held, extend
and paint the current path. -/
def draw (clientX clientY rectLeft rectTop : Int) (st : ScState) : ScState :=
  if !st.isScribbleMode then st
  else if !st.canvasPresent then st
  else
    let x := clientX - rectLeft
    let y := clientY - rectTop
    let shouldStartStroke := (st.isSpaceHeld || st.isMouseDown) && !st.isDrawing
    if shouldStartStroke then startDrawing clientX clientY rectLeft rectTop st
    else if st.isDrawing && (st.isSpaceHeld || st.isMouseDown) then
      lineToStroke ⟨x, y⟩ st
    else st

/-- `clearCanvas` (lines 287-295): wipe the whole raster. -/
def clearCanvas (st : ScState) : ScState :=
  if !st.canvasPresent then st
  else { st with content := [] }

/-- Space keydown branch (lines 154-158): in scribble mode, hold space and
force the pencil. -/
def spaceKeyDown (st : ScState) : ScState :=
  if st.isScribbleMode then { st with isSpaceHeld := true, isEraser := false }
  else st

/-- KeyE keydown branch (lines 159-163): in scribble mode, force the eraser
and simulate the draw-trigger hold. -/
def eKeyDown (st : ScState) : ScState :=
  if st.isScribbleMode then { st with isEraser := true, isSpaceHeld := true }
  else st

/-- Space keyup branch (lines 166-171): restore the resting tool
(`backgroundState`), release the hold, and stop drawing. -/
def spaceKeyUp (st : ScState) : ScState :=
  if st.isScribbleMode then
    stopDrawing { st with isEraser := st.backgroundState, isSpaceHeld := false }
  else st

/-- KeyE keyup branch (lines 172-177): same restoration as space keyup. -/
def eKeyUp (st : ScState) : ScState :=
  if st.isScribbleMode then
    stopDrawing { st with isEraser := st.backgroundState, isSpaceHeld := false }
  else st

/-- Tab+S branch of the mode keydown handler (lines 200-203): toggle scribble
mode.  Nothing else in the handler touches the drawing state. -/
def scribbleModeToggle (st : ScState) : ScState :=
  { st with isScribbleMode := !st.isScribbleMode }

/-- Escape branch of the mode keydown handler (lines 205-208): leave scribble
mode if it is on.  Nothing else in the handler touches the drawing state. -/
def scribbleModeEscape (st : ScState) : ScState :=
  if st.isScribbleMode then { st with isScribbleMode := false } else st

/-- Pencil button `onClick` (lines 418-421): set active and resting tool. -/
def pencilButtonClick (st : ScState) : ScState :=
  { st with isEraser := false, backgroundState := false }

/-- Eraser button `onClick` (lines 474-477): set active and resting tool. -/
def eraserButtonClick (st : ScState) : ScState :=
  { st with isEraser := true, backgroundState := true }

/-- Pointer events the canvas element can receive. -/
inductive CanvasEvent where
  | mouseDown (clientX clientY rectLeft rectTop : Int)
  | mouseMove (clientX clientY rectLeft rectTop : Int)
  | mouseUp
  | mouseOut
deriving Repr, DecidableEq

/-- Delivery of a pointer event to the canvas.  The canvas style sets
`pointerEvents: isScribbleMode ? 'auto' : 'none'` (line 349), so outside
scribble mode no pointer event reaches any handler; inside it,
`onMouseDown → startDrawing`, `onMouseMove → draw`,
`onMouseUp/onMouseOut → stopDrawing` (lines 339-342). -/
def deliverCanvasEvent (ev : CanvasEvent) (st : ScState) : ScState :=
  if !st.isScribbleMode then st
  else
    match ev with
    | .mouseDown cx cy l t => startDrawing cx cy l t st
    | .mouseMove cx cy l t => draw cx cy l t st
    | .mouseUp => stopDrawing st
    | .mouseOut => stopDrawing st

/-- One event step including React's after-render effect: the save-after-stroke
effect (deps `[isDrawing]`) runs exactly when the event changed `isDrawing`. -/
def stepCanvasEvent (ev : CanvasEvent) (st : ScState) : ScState :=
  let st' := deliverCanvasEvent ev st
  if st'.isDrawing ≠ st.isDrawing then saveAfterStrokeEffect st' else st'

/-- Process a list of canvas events in order. -/
def stepCanvasEvents (evs : List CanvasEvent) (st : ScState) : ScState :=
  evs.foldl (fun s ev => stepCanvasEvent ev s) st

/-- `updateCanvasSize` (lines 51-119).  Inputs: the device pixel ratio, the
measured width and maximal height, whether the parent container exists and
whether the temporary canvas yielded a 2D context.  If the size actually
changes, the canvas is resized (which blanks it), the scratch copy is drawn
back and a fresh snapshot saved; without a scratch context the previously
saved snapshot is restored instead; with neither, the raster stays blank. -/
def updateCanvasSize (dpr width maxHeight : Nat) (parentPresent tempCtxOk : Bool)
    (st : ScState) : ScState :=
  if !st.canvasPresent then st
  else if !parentPresent then st
  else if st.canvasWidth = width * dpr && st.canvasHeight = maxHeight * dpr then st
  else
    let currentState := st.lastDrawnState
    let tempContent : Option (List (List Point)) :=
      if tempCtxOk then some st.content else none
    let st1 := { st with
      canvasWidth := width * dpr
      canvasHeight := maxHeight * dpr
      content := [] }
    let st2 :=
      match tempContent with
      | some c => saveCanvasState { st1 with content := c }
      | none =>
        match currentState with
        | some snap => { st1 with content := snap }
        | none => st1
    { st2 with lineWidth := 2, ctxStrokeStyle := st.strokeColor }

/-- The component state right after mount with scribble mode on: the
`useState` initial values (lines 15-22), the refs `false`/`false`/`null`
(lines 23-25), a mounted canvas and a blank raster. -/
def initialScState : ScState where
  isScribbleMode := true
  isDrawing := false
  isEraser := false
  isSpaceHeld := false
  backgroundState := false
  strokeColor := "#5A5A5A"
  displayIntroText := true
  isMouseDown := false
  didDrawInStroke := false
  lastDrawnState := none
  canvasPresent := true
  content := []
  canvasWidth := 0
  canvasHeight := 0
  comp := CompOp.sourceOver
  lineWidth := 2
  ctxStrokeStyle := "#5A5A5A"
  ctxCurrent := none
  ctxPainted := false

end ScribbleOverlay

namespace TextboxOverlay

/-- Process a list of `mousemove` events (pointer coordinates) in order; a
re-render happens between events, so each handler sees the updated state. -/
def applyMoves (moves : List (Int × Int)) (s : TbState) : TbState :=
  moves.foldl (fun st m => handleMouseMove m.1 m.2 st) s

/-- Sum of the incremental x-deltas of a pointer trajectory that starts at
`x0`: each move contributes its difference from the previous position. -/
def dxSum (x0 : Int) (moves : List (Int × Int)) : Int :=
  match moves with
  | [] => 0
  | m :: rest => (m.1 - x0) + dxSum m.1 rest

/-- Sum of the incremental y-deltas, starting at `y0`. -/
def dySum (y0 : Int) (moves : List (Int × Int)) : Int :=
  match moves with
  | [] => 0
  | m :: rest => (m.2 - y0) + dySum m.2 rest

/-- Data of one placement click: client coordinates, scroll offsets, and the
`Date.now()` timestamp at the click. -/
structure Click where
  clientX : Int
  clientY : Int
  scrollX : Int
  scrollY : Int
  now : Nat
deriving Repr, DecidableEq

/-- The textbox that a placement click creates (body of `handleOverlayClick`,
lines 112-118). -/
def clickBox (c : Click) : Textbox :=
  { id := mkTextboxId c.now
    x := c.clientX + c.scrollX
    y := c.clientY + c.scrollY
    text := ""
    isEditing := true }

/-- One placement round: Tab+T turns textbox mode on, then the click places a
box (and turns the mode back off). -/
def activateAndClick (c : Click) (s : TbState) : TbState :=
  handleOverlayClick c.clientX c.clientY c.scrollX c.scrollY c.now
    (textboxModeToggle s)

/-- A sequence of placement rounds. -/
def placeAll (clicks : List Click) (s : TbState) : TbState :=
  clicks.foldl (fun st c => activateAndClick c st) s

end TextboxOverlay

/-! ### Decimal digits: a decoder for `Nat.repr`

`Nat.repr n = (Nat.toDigits 10 n).asString` where `Nat.toDigits` is the
fuel-based core routine.  To prove ids of the form `"textbox-" ++ Nat.repr n`
injective we replay `toDigitsCore` as the structurally recursive `rdigits` and
give a decoder that recovers `n` from its digit list. -/

/-- Numeric value of a decimal digit character produced by `Nat.digitChar`. -/
def digitVal (c : Char) : Nat :=
  if c = '0' then 0 else
  if c = '1' then 1 else
  if c = '2' then 2 else
  if c = '3' then 3 else
  if c = '4' then 4 else
  if c = '5' then 5 else
  if c = '6' then 6 else
  if c = '7' then 7 else
  if c = '8' then 8 else
  if c = '9' then 9 else 0

/-- Most-significant-first decimal digits of `n`, mirroring what
`Nat.toDigitsCore 10` produces with enough fuel. -/
def rdigits (n : Nat) : List Char :=
  if h : n / 10 = 0 then [Nat.digitChar (n % 10)]
  else rdigits (n / 10) ++ [Nat.digitChar (n % 10)]
decreasing_by
  exact Nat.div_lt_self (by omega) (by omega)

/-- Decode a most-significant-first decimal digit list, starting from an
accumulated high part `a`. -/
def decodeDigits (a : Nat) (ds : List Char) : Nat :=
  ds.foldl (fun acc c => acc * 10 + digitVal c) a

/-! ### Helper lemmas -/

theorem digitVal_digitChar {d : Nat} (h : d < 10) :
    digitVal (Nat.digitChar d) = d := by
  interval_cases d <;> decide

theorem toDigitsCore_eq_rdigits :
    ∀ (fuel n : Nat) (ds : List Char), n < fuel →
      Nat.toDigitsCore 10 fuel n ds = rdigits n ++ ds := by
  intro fuel
  induction fuel with
  | zero => intro n ds h; omega
  | succ f ih =>
    intro n ds h
    simp only [Nat.toDigitsCore]
    by_cases h0 : n / 10 = 0
    · rw [if_pos h0, rdigits, dif_pos h0]
      rfl
    · rw [if_neg h0]
      have h10 : 10 ≤ n := by omega
      have hdiv : n / 10 < n := Nat.div_lt_self (by omega) (by omega)
      rw [ih (n / 10) _ (by omega)]
      have hrn : rdigits n = rdigits (n / 10) ++ [Nat.digitChar (n % 10)] := by
        rw [rdigits]
        rw [dif_neg h0]
      rw [hrn]
      simp

theorem toDigits_eq_rdigits (n : Nat) : Nat.toDigits 10 n = rdigits n := by
  have := toDigitsCore_eq_rdigits (n + 1) n [] (Nat.lt_succ_self n)
  simpa [Nat.toDigits] using this

theorem decodeDigits_rdigits (n : Nat) :
    ∀ a : Nat, decodeDigits a (rdigits n) = a * 10 ^ (rdigits n).length + n := by
  induction n using Nat.strong_induction_on with
  | _ n ih =>
    intro a
    rw [rdigits]
    by_cases h0 : n / 10 = 0
    · rw [dif_pos h0]
      have hn10 : n < 10 := by omega
      have hmod : n % 10 = n := by omega
      simp [decodeDigits, hmod, digitVal_digitChar hn10]
    · rw [dif_neg h0]
      have h10 : 10 ≤ n := by omega
      have hdiv : n / 10 < n := Nat.div_lt_self (by omega) (by omega)
      have hrec := ih (n / 10) hdiv a
      simp only [decodeDigits, List.foldl_append, List.foldl_cons, List.foldl_nil] at hrec ⊢
      rw [hrec, digitVal_digitChar (Nat.mod_lt n (by omega) : n % 10 < 10)]
      have hlen : (rdigits (n / 10) ++ [Nat.digitChar (n % 10)]).length
          = (rdigits (n / 10)).length + 1 := by simp
      rw [hlen, pow_succ]
      have hdm : n / 10 * 10 + n % 10 = n := by omega
      calc (a * 10 ^ (rdigits (n / 10)).length + n / 10) * 10 + n % 10
      = a * (10 ^ (rdigits (n / 10)).length * 10) + (n / 10 * 10 + n % 10) := by ring
        _ = a * (10 ^ (rdigits (n / 10)).length * 10) + n := by rw [hdm]

theorem rdigits_injective {m n : Nat} (h : rdigits m = rdigits n) : m = n := by
  have hm := decodeDigits_rdigits m 0
  have hn := decodeDigits_rdigits n 0
  rw [h] at hm
  simpa [hn] using hm.symm

theorem natRepr_injective {m n : Nat} (h : Nat.repr m = Nat.repr n) : m = n := by
  have hdata : (Nat.toDigits 10 m) = (Nat.toDigits 10 n) :=
    congrArg String.data h
  rw [toDigits_eq_rdigits, toDigits_eq_rdigits] at hdata
  exact rdigits_injective hdata

namespace TextboxOverlay

theorem mkTextboxId_injective {m n : Nat} (h : mkTextboxId m = mkTextboxId n) :
    m = n := by
  have hd : "textbox-".data ++ (Nat.repr m).data
      = "textbox-".data ++ (Nat.repr n).data := by
    simpa [mkTextboxId] using congrArg String.data h
  exact natRepr_injective (String.ext (List.append_cancel_left hd))

theorem map_drag_zero (tbs : List Textbox) (i : String) :
    (tbs.map fun tb =>
      if tb.id = i then { tb with x := tb.x + 0, y := tb.y + 0 } else tb) = tbs := by
  have h : ∀ tb ∈ tbs,
      (if tb.id = i then { tb with x := tb.x + 0, y := tb.y + 0 } else tb) = tb := by
    intro tb _
    by_cases hid : tb.id = i
    · rw [if_pos hid, add_zero, add_zero]
    · rw [if_neg hid]
  rw [List.map_congr_left h, List.map_id']

theorem applyMoves_some_textboxes (moves : List (Int × Int)) :
    ∀ (tbs : List Textbox) (d : DragState) (mode : Bool),
      (applyMoves moves ⟨tbs, some d, mode⟩).textboxes =
        tbs.map fun tb =>
          if tb.id = d.id then
            { tb with x := tb.x + dxSum d.startX moves, y := tb.y + dySum d.startY moves }
          else tb := by
  induction moves with
  | nil =>
    intro tbs d mode
    simp only [applyMoves, List.foldl_nil, dxSum, dySum]
    exact (map_drag_zero tbs d.id).symm
  | cons m rest ih =>
    intro tbs d mode
    have hstep : applyMoves (m :: rest) ⟨tbs, some d, mode⟩ =
        applyMoves rest
          ⟨tbs.map fun tb =>
              if tb.id = d.id then
                { tb with x := tb.x + (m.1 - d.startX), y := tb.y + (m.2 - d.startY) }
              else tb,
           some ⟨d.id, m.1, m.2⟩, mode⟩ := rfl
    rw [hstep, ih, List.map_map]
    apply List.map_congr_left
    intro tb _
    by_cases hid : tb.id = d.id
    · simp [Function.comp, hid, dxSum, dySum, add_assoc]
    · simp [Function.comp, hid]

/-- C1: a pointer-down on a non-editing box (not on the delete control) begins
a drag; each pointer-move adds the incremental delta since the last recorded
pointer position and re-records the pointer position, so N moves move the
dragged box by the sum of the deltas while every other box is unchanged, and
pointer-up ends the drag. -/
theorem drag_net_delta (tbs : List Textbox) (b : Textbox) (hb : b ∈ tbs)
    (hedit : b.isEditing = false) (x0 y0 : Int) (moves : List (Int × Int))
    (dr0 : Option DragState) (mode : Bool) :
    (handleMouseUp (applyMoves moves (boxMouseDown b.id x0 y0 ⟨tbs, dr0, mode⟩))).dragState
        = none ∧
    (handleMouseUp (applyMoves moves (boxMouseDown b.id x0 y0 ⟨tbs, dr0, mode⟩))).textboxes
        = tbs.map (fun tb =>
            if tb.id = b.id then
              { tb with x := tb.x + dxSum x0 moves, y := tb.y + dySum y0 moves }
            else tb) ∧
    (deleteButtonMouseDown ⟨tbs, dr0, mode⟩).dragState = dr0 ∧
    ∀ tb ∈ tbs, tb.id ≠ b.id →
      tb ∈ (handleMouseUp (applyMoves moves (boxMouseDown b.id x0 y0 ⟨tbs, dr0, mode⟩))).textboxes := by
  have hmain :
      (applyMoves moves (boxMouseDown b.id x0 y0 ⟨tbs, dr0, mode⟩)).textboxes
        = tbs.map (fun tb =>
            if tb.id = b.id then
              { tb with x := tb.x + dxSum x0 moves, y := tb.y + dySum y0 moves }
            else tb) :=
    applyMoves_some_textboxes moves tbs ⟨b.id, x0, y0⟩ mode
  refine ⟨rfl, ?_, rfl, ?_⟩
  · simpa [handleMouseUp] using hmain
  · intro tb htb hne
    have : (handleMouseUp (applyMoves moves (boxMouseDown b.id x0 y0 ⟨tbs, dr0, mode⟩))).textboxes
        = tbs.map (fun tb =>
            if tb.id = b.id then
              { tb with x := tb.x + dxSum x0 moves, y := tb.y + dySum y0 moves }
            else tb) := by
      simpa [handleMouseUp] using hmain
    rw [this]
    exact List.mem_map.mpr ⟨tb, htb, by simp [hne]⟩

theorem drag_net_delta_witness :
    (handleMouseUp (applyMoves [(3, 4), (5, 6)]
        (boxMouseDown "a" 0 0
          ⟨[⟨"a", 10, 20, "hi", false⟩, ⟨"b", 1, 2, "t", true⟩], none, false⟩))).textboxes
      = [⟨"a", 15, 26, "hi", false⟩, ⟨"b", 1, 2, "t", true⟩] := by
  have h := drag_net_delta [⟨"a", 10, 20, "hi", false⟩, ⟨"b", 1, 2, "t", true⟩]
    ⟨"a", 10, 20, "hi", false⟩ (by decide) rfl 0 0 [(3, 4), (5, 6)] none false
  rw [h.2.1]
  decide

/-- C2: while textbox mode is on, a click appends exactly one new textbox at
the click's page coordinates (client + scroll) in editing state and turns the
mode off; while the mode is off a click creates nothing. -/
theorem click_places_single_textbox (s : TbState) (cx cy sx sy : Int) (now : Nat)
    (hmode : s.isTextboxMode = true) :
    (handleOverlayClick cx cy sx sy now s).textboxes
        = s.textboxes ++
            [{ id := mkTextboxId now, x := cx + sx, y := cy + sy,
               text := "", isEditing := true }] ∧
    (handleOverlayClick cx cy sx sy now s).textboxes.length
        = s.textboxes.length + 1 ∧
    (handleOverlayClick cx cy sx sy now s).isTextboxMode = false ∧
    ∀ s' : TbState, s'.isTextboxMode = false → handleOverlayClick cx cy sx sy now s' = s' := by
  refine ⟨?_, ?_, ?_, ?_⟩
  · simp [handleOverlayClick, hmode]
  · simp [handleOverlayClick, hmode]
  · simp [handleOverlayClick, hmode]
  · intro s' h'
    simp [handleOverlayClick, h']

theorem click_places_single_textbox_witness :
    (handleOverlayClick 7 8 1 2 5 ⟨[], none, true⟩).textboxes
        = [{ id := mkTextboxId 5, x := 7 + 1, y := 8 + 2, text := "", isEditing := true }] ∧
    (handleOverlayClick 7 8 1 2 5 ⟨[], none, true⟩).isTextboxMode = false := by
  have h := click_places_single_textbox ⟨[], none, true⟩ 7 8 1 2 5 rfl
  exact ⟨by simpa using h.1, h.2.2.1⟩

/-- C7 counterexample: the delete control is rendered only inside the editing
branch of the JSX, so for a non-editing box no delete control is available —
refuting the claim that deletion is available in both states. -/
theorem delete_unavailable_when_not_editing :
    rendersDeleteControl ⟨"a", 0, 0, "hello", false⟩ = false ∧
    (⟨"a", 0, 0, "hello", false⟩ : Textbox).isEditing = false := by
  decide

/-- C7 amended: activating the delete control removes exactly the boxes with
that id and leaves every other box unchanged (a sublist of the original, so
order and contents are preserved); the control is rendered only while the box
is in editing state. -/
theorem delete_removes_exactly_id (s : TbState) (boxId : String) :
    (∀ b : Textbox,
      b ∈ (deleteBoxClick boxId s).textboxes ↔ (b ∈ s.textboxes ∧ b.id ≠ boxId)) ∧
    (deleteBoxClick boxId s).textboxes.Sublist s.textboxes ∧
    (deleteBoxClick boxId s).dragState = s.dragState ∧
    (deleteBoxClick boxId s).isTextboxMode = s.isTextboxMode ∧
    ∀ tb : Textbox, rendersDeleteControl tb = tb.isEditing := by
  refine ⟨?_, ?_, rfl, rfl, fun _ => rfl⟩
  · intro b
    simp [deleteBoxClick, List.mem_filter]
  · simpa [deleteBoxClick] using
      List.filter_sublist (p := fun tb => tb.id ≠ boxId) s.textboxes

theorem delete_removes_exactly_id_witness :
    (⟨"b", 1, 1, "x", false⟩ : Textbox) ∈
      (deleteBoxClick "a" ⟨[⟨"a", 0, 0, "", true⟩, ⟨"b", 1, 1, "x", false⟩], none, false⟩).textboxes ∧
    ((⟨"a", 0, 0, "", true⟩ : Textbox) ∈
      (deleteBoxClick "a" ⟨[⟨"a", 0, 0, "", true⟩, ⟨"b", 1, 1, "x", false⟩], none, false⟩).textboxes
        → False) := by
  have h := delete_removes_exactly_id
    ⟨[⟨"a", 0, 0, "", true⟩, ⟨"b", 1, 1, "x", false⟩], none, false⟩ "a"
  constructor
  · exact (h.1 _).mpr ⟨by decide, by decide⟩
  · intro hmem
    exact ((h.1 _).mp hmem).2 rfl

/-- C10: every change event on an editing box's text field stores the field's
value as that box's text, leaving its editing flag and position (the whole
rest of the record) unchanged, and leaves every other box, the drag state and
the mode unchanged. -/
theorem textarea_change_frame (s : TbState) (boxId v : String) (i : Nat)
    (tb : Textbox) (htb : s.textboxes[i]? = some tb) :
    (textareaChange boxId v s).dragState = s.dragState ∧
    (textareaChange boxId v s).isTextboxMode = s.isTextboxMode ∧
    (textareaChange boxId v s).textboxes.length = s.textboxes.length ∧
    (tb.id = boxId →
      (textareaChange boxId v s).textboxes[i]? = some { tb with text := v }) ∧
    (tb.id ≠ boxId → (textareaChange boxId v s).textboxes[i]? = some tb) := by
  refine ⟨rfl, rfl, by simp [textareaChange], ?_, ?_⟩
  · intro hid
    simp [textareaChange, List.getElem?_map, htb, hid]
  · intro hid
    simp [textareaChange, List.getElem?_map, htb, hid]

theorem textarea_change_frame_witness :
    (textareaChange "a" "typed" ⟨[⟨"a", 3, 4, "t", true⟩, ⟨"b", 1, 2, "u", false⟩], none, false⟩).textboxes[0]?
        = some ⟨"a", 3, 4, "typed", true⟩ ∧
    (textareaChange "a" "typed" ⟨[⟨"a", 3, 4, "t", true⟩, ⟨"b", 1, 2, "u", false⟩], none, false⟩).textboxes[1]?
        = some ⟨"b", 1, 2, "u", false⟩ := by
  have h0 := textarea_change_frame
    ⟨[⟨"a", 3, 4, "t", true⟩, ⟨"b", 1, 2, "u", false⟩], none, false⟩ "a" "typed" 0
    ⟨"a", 3, 4, "t", true⟩ rfl
  have h1 := textarea_change_frame
    ⟨[⟨"a", 3, 4, "t", true⟩, ⟨"b", 1, 2, "u", false⟩], none, false⟩ "a" "typed" 1
    ⟨"b", 1, 2, "u", false⟩ rfl
  exact ⟨h0.2.2.2.1 rfl, h1.2.2.2.2 (by decide)⟩

/-- C6 counterexample: losing focus to a button element that is NOT the
delete control (`matchesButton = true`, `isDeleteControl = false`) does not
commit: the handler only tests `matches('button')`, so the box keeps its old
text `"a"` and stays in editing state although the field held `"ab"` — the
claim, which predicates the commit on the target not being the delete button,
demands a commit here. -/
theorem textbox_blur_to_foreign_button_no_commit :
    (textareaBlur "b1" "ab" (some ⟨true, false⟩)
        ⟨[⟨"b1", 0, 0, "a", true⟩], none, false⟩).textboxes
      = [⟨"b1", 0, 0, "a", true⟩] := by
  decide

/-- C6 amended: losing focus with the new focus target not matching the
`'button'` selector (rather than: not being the delete button) commits the
field's value and leaves editing; Enter without Shift commits as well (the
field is controlled, so its content equals the stored text); Shift+Enter does
not commit, and the newline subsequently reported by the change event is
stored while editing continues. -/
theorem textbox_commit_behavior (s : TbState) (boxId fieldValue : String)
    (rt : Option BlurTarget) (hbtn : blurTargetMatchesButton rt = false)
    (hctrl : ∀ tb ∈ s.textboxes, tb.id = boxId → tb.text = fieldValue) :
    (textareaBlur boxId fieldValue rt s).textboxes
        = s.textboxes.map (fun tb =>
            if tb.id = boxId then { tb with text := fieldValue, isEditing := false }
            else tb) ∧
    (textareaEnterKeyDown boxId fieldValue false s).textboxes
        = s.textboxes.map (fun tb =>
            if tb.id = boxId then { tb with text := fieldValue, isEditing := false }
            else tb) ∧
    textareaEnterKeyDown boxId fieldValue true s = s ∧
    (textareaChange boxId (fieldValue ++ "\n") s).textboxes
        = s.textboxes.map (fun tb =>
            if tb.id = boxId then { tb with text := fieldValue ++ "\n" } else tb) := by
  refine ⟨?_, ?_, rfl, rfl⟩
  · simp [textareaBlur, hbtn, handleTextChange]
  · simp only [textareaEnterKeyDown, applyOps, List.foldl_cons, List.foldl_nil,
      Bool.false_eq_true, if_false]
    apply List.map_congr_left
    intro tb htb
    by_cases hid : tb.id = boxId
    · rw [if_pos hid, if_pos hid, hctrl tb htb hid]
    · rw [if_neg hid, if_neg hid]

theorem textbox_commit_behavior_witness :
    (textareaBlur "b1" "ab" none
        ⟨[⟨"b1", 0, 0, "ab", true⟩], none, false⟩).textboxes
      = [⟨"b1", 0, 0, "ab", false⟩] ∧
    (textareaEnterKeyDown "b1" "ab" false
        ⟨[⟨"b1", 0, 0, "ab", true⟩], none, false⟩).textboxes
      = [⟨"b1", 0, 0, "ab", false⟩] ∧
    textareaEnterKeyDown "b1" "ab" true ⟨[⟨"b1", 0, 0, "ab", true⟩], none, false⟩
      = ⟨[⟨"b1", 0, 0, "ab", true⟩], none, false⟩ := by
  have h := textbox_commit_behavior ⟨[⟨"b1", 0, 0, "ab", true⟩], none, false⟩
    "b1" "ab" none rfl (by decide)
  refine ⟨?_, ?_, h.2.2.1⟩
  · rw [h.1]; decide
  · rw [h.2.1]; decide

/-- C9 counterexample: two placement clicks in the same millisecond
(`Date.now() = 1000` at both) create two distinct boxes carrying the same
time-based id `"textbox-1000"`. -/
theorem textbox_same_ms_duplicate_id :
    (placeAll [⟨0, 0, 0, 0, 1000⟩, ⟨5, 7, 0, 0, 1000⟩] ⟨[], none, false⟩).textboxes
      = [⟨"textbox-1000", 0, 0, "", true⟩, ⟨"textbox-1000", 5, 7, "", true⟩] := by
  decide

theorem activateAndClick_eq (c : Click) (s : TbState) (h : s.isTextboxMode = false) :
    activateAndClick c s = ⟨s.textboxes ++ [clickBox c], s.dragState, false⟩ := by
  simp [activateAndClick, textboxModeToggle, handleOverlayClick, h, clickBox]

theorem placeAll_textboxes (clicks : List Click) :
    ∀ s : TbState, s.isTextboxMode = false →
      (placeAll clicks s).textboxes = s.textboxes ++ clicks.map clickBox ∧
      (placeAll clicks s).isTextboxMode = false := by
  induction clicks with
  | nil =>
    intro s h
    exact ⟨by simp [placeAll], h⟩
  | cons c rest ih =>
    intro s h
    have hstep : placeAll (c :: rest) s = placeAll rest (activateAndClick c s) := rfl
    rw [hstep, activateAndClick_eq c s h]
    obtain ⟨h1, h2⟩ := ih ⟨s.textboxes ++ [clickBox c], s.dragState, false⟩ rfl
    refine ⟨?_, h2⟩
    rw [h1]
    simp

/-- C9 amended: ids of created textboxes are pairwise distinct provided the
`Date.now()` timestamps of the placement clicks are pairwise distinct (the
code offers no uniqueness when two clicks share a millisecond). -/
theorem textbox_ids_unique_of_distinct_times (clicks : List Click)
    (h : clicks.Pairwise fun a b => a.now ≠ b.now) :
    ((placeAll clicks ⟨[], none, false⟩).textboxes.map fun tb => tb.id).Pairwise
      (fun a b => a ≠ b) := by
  have hp := (placeAll_textboxes clicks ⟨[], none, false⟩ rfl).1
  rw [hp]
  simp only [List.nil_append, List.map_map]
  refine h.map _ ?_
  intro a b hab hEq
  exact hab (mkTextboxId_injective hEq)

theorem textbox_ids_unique_of_distinct_times_witness :
    ((placeAll [⟨0, 0, 0, 0, 1000⟩, ⟨5, 7, 0, 0, 1001⟩] ⟨[], none, false⟩).textboxes.map
        fun tb => tb.id).Pairwise (fun a b => a ≠ b) :=
  textbox_ids_unique_of_distinct_times [⟨0, 0, 0, 0, 1000⟩, ⟨5, 7, 0, 0, 1001⟩]
    (by decide)

end TextboxOverlay

namespace ScribbleOverlay

theorem stopDrawing_frame (st : ScState) :
    (stopDrawing st).isEraser = st.isEraser ∧
    (stopDrawing st).backgroundState = st.backgroundState ∧
    (stopDrawing st).isSpaceHeld = st.isSpaceHeld ∧
    (stopDrawing st).isScribbleMode = st.isScribbleMode ∧
    (stopDrawing st).canvasPresent = st.canvasPresent ∧
    (stopDrawing st).content = st.content ∧
    (stopDrawing st).lastDrawnState = st.lastDrawnState := by
  unfold stopDrawing
  split
  · exact ⟨rfl, rfl, rfl, rfl, rfl, rfl, rfl⟩
  · split
    · exact ⟨rfl, rfl, rfl, rfl, rfl, rfl, rfl⟩
    · exact ⟨rfl, rfl, rfl, rfl, rfl, rfl, rfl⟩

theorem mode_off_no_receive (ev : CanvasEvent) (s : ScState)
    (h : s.isScribbleMode = false) : stepCanvasEvent ev s = s := by
  simp [stepCanvasEvent, deliverCanvasEvent, h]

theorem down_fields (st : ScState) (cx cy l t : Int)
    (hmode : st.isScribbleMode = true) (hcanvas : st.canvasPresent = true)
    (hidle : st.isDrawing = false) :
    (stepCanvasEvent (CanvasEvent.mouseDown cx cy l t) st).isScribbleMode = true ∧
    (stepCanvasEvent (CanvasEvent.mouseDown cx cy l t) st).canvasPresent = true ∧
    (stepCanvasEvent (CanvasEvent.mouseDown cx cy l t) st).isDrawing = true ∧
    (stepCanvasEvent (CanvasEvent.mouseDown cx cy l t) st).isMouseDown = true ∧
    (stepCanvasEvent (CanvasEvent.mouseDown cx cy l t) st).ctxPainted = false ∧
    (stepCanvasEvent (CanvasEvent.mouseDown cx cy l t) st).ctxCurrent
        = some [⟨cx - l, cy - t⟩] ∧
    (stepCanvasEvent (CanvasEvent.mouseDown cx cy l t) st).content = st.content ∧
    (stepCanvasEvent (CanvasEvent.mouseDown cx cy l t) st).lastDrawnState
        = st.lastDrawnState := by
  by_cases he : st.isEraser <;>
    simp [stepCanvasEvent, deliverCanvasEvent, startDrawing, saveAfterStrokeEffect,
      hmode, hcanvas, hidle, he]

theorem move_paint_first (st : ScState) (cx cy l t : Int) (ps : List Point)
    (hmode : st.isScribbleMode = true) (hcanvas : st.canvasPresent = true)
    (hdraw : st.isDrawing = true) (hmouse : st.isMouseDown = true)
    (hcur : st.ctxCurrent = some ps) (hpaint : st.ctxPainted = false) :
    stepCanvasEvent (CanvasEvent.mouseMove cx cy l t) st =
      { st with ctxCurrent := some (ps ++ [⟨cx - l, cy - t⟩]),
                ctxPainted := true,
                content := st.content ++ [ps ++ [⟨cx - l, cy - t⟩]],
                didDrawInStroke := true } := by
  simp [stepCanvasEvent, deliverCanvasEvent, draw, lineToStroke,
    hmode, hcanvas, hdraw, hmouse, hcur, hpaint]

theorem move_paint_rest (st : ScState) (cx cy l t : Int) (ps : List Point)
    (hmode : st.isScribbleMode = true) (hcanvas : st.canvasPresent = true)
    (hdraw : st.isDrawing = true) (hmouse : st.isMouseDown = true)
    (hcur : st.ctxCurrent = some ps) (hpaint : st.ctxPainted = true) :
    stepCanvasEvent (CanvasEvent.mouseMove cx cy l t) st =
      { st with ctxCurrent := some (ps ++ [⟨cx - l, cy - t⟩]),
                content := st.content.dropLast ++ [ps ++ [⟨cx - l, cy - t⟩]],
                didDrawInStroke := true } := by
  simp [stepCanvasEvent, deliverCanvasEvent, draw, lineToStroke,
    hmode, hcanvas, hdraw, hmouse, hcur, hpaint]

theorem moveSteps_keep (moves : List (Int × Int × Int × Int)) :
    ∀ st : ScState, st.isScribbleMode = true → st.canvasPresent = true →
      st.isDrawing = true → st.isMouseDown = true → st.ctxPainted = true →
      (∃ ps, st.ctxCurrent = some ps) → 0 < st.content.length →
      (stepCanvasEvents (moves.map fun m =>
          CanvasEvent.mouseMove m.1 m.2.1 m.2.2.1 m.2.2.2) st).isScribbleMode = true ∧
      (stepCanvasEvents (moves.map fun m =>
          CanvasEvent.mouseMove m.1 m.2.1 m.2.2.1 m.2.2.2) st).canvasPresent = true ∧
      (stepCanvasEvents (moves.map fun m =>
          CanvasEvent.mouseMove m.1 m.2.1 m.2.2.1 m.2.2.2) st).isDrawing = true ∧
      (stepCanvasEvents (moves.map fun m =>
          CanvasEvent.mouseMove m.1 m.2.1 m.2.2.1 m.2.2.2) st).isMouseDown = true ∧
      (stepCanvasEvents (moves.map fun m =>
          CanvasEvent.mouseMove m.1 m.2.1 m.2.2.1 m.2.2.2) st).ctxPainted = true ∧
      (∃ ps, (stepCanvasEvents (moves.map fun m =>
          CanvasEvent.mouseMove m.1 m.2.1 m.2.2.1 m.2.2.2) st).ctxCurrent = some ps) ∧
      (stepCanvasEvents (moves.map fun m =>
          CanvasEvent.mouseMove m.1 m.2.1 m.2.2.1 m.2.2.2) st).content.length
        = st.content.length := by
  induction moves with
  | nil =>
    intro st h1 h2 h3 h4 h5 h6 h7
    exact ⟨h1, h2, h3, h4, h5, h6, rfl⟩
  | cons m rest ih =>
    intro st h1 h2 h3 h4 h5 h6 h7
    obtain ⟨ps, hps⟩ := h6
    have hstep := move_paint_rest st m.1 m.2.1 m.2.2.1 m.2.2.2 ps h1 h2 h3 h4 hps h5
    have hcons : stepCanvasEvents ((m :: rest).map fun m =>
        CanvasEvent.mouseMove m.1 m.2.1 m.2.2.1 m.2.2.2) st
        = stepCanvasEvents (rest.map fun m =>
            CanvasEvent.mouseMove m.1 m.2.1 m.2.2.1 m.2.2.2)
          (stepCanvasEvent (CanvasEvent.mouseMove m.1 m.2.1 m.2.2.1 m.2.2.2) st) := rfl
    rw [hcons, hstep]
    have hlen : (st.content.dropLast ++
          [ps ++ [(⟨m.1 - m.2.2.1, m.2.1 - m.2.2.2⟩ : Point)]]).length
        = st.content.length := by
      simp [List.length_dropLast]
      omega
    have := ih { st with
                 ctxCurrent := some (ps ++ [(⟨m.1 - m.2.2.1, m.2.1 - m.2.2.2⟩ : Point)])
                 content := st.content.dropLast ++
                   [ps ++ [(⟨m.1 - m.2.2.1, m.2.1 - m.2.2.2⟩ : Point)]]
                 didDrawInStroke := true }
      h1 h2 h3 h4 h5 ⟨_, rfl⟩ (by rw [hlen]; exact h7)
    refine ⟨this.1, this.2.1, this.2.2.1, this.2.2.2.1, this.2.2.2.2.1,
      this.2.2.2.2.2.1, ?_⟩
    rw [this.2.2.2.2.2.2]
    exact hlen

theorem up_fields (st : ScState)
    (hmode : st.isScribbleMode = true) (hcanvas : st.canvasPresent = true)
    (hdraw : st.isDrawing = true) :
    (stepCanvasEvent CanvasEvent.mouseUp st).content = st.content ∧
    (stepCanvasEvent CanvasEvent.mouseUp st).isDrawing = false ∧
    (stepCanvasEvent CanvasEvent.mouseUp st).isMouseDown = false ∧
    (stepCanvasEvent CanvasEvent.mouseUp st).comp = CompOp.sourceOver ∧
    (stepCanvasEvent CanvasEvent.mouseUp st).lastDrawnState = st.lastDrawnState := by
  simp [stepCanvasEvent, deliverCanvasEvent, stopDrawing, saveAfterStrokeEffect,
    hmode, hcanvas, hdraw]

/-- C3: while scribble mode is on, a pointer-down followed by N ≥ 1
pointer-moves and a pointer-up paints exactly one new stroke onto the raster
(and ends with the drawing flag off); while scribble mode is off no pointer
event reaches the canvas (its `pointerEvents` style is `'none'`), so nothing
is drawn and the drawing state is unchanged. -/
theorem scribble_one_stroke_per_down_up (st : ScState) (p : Int × Int × Int × Int)
    (moves : List (Int × Int × Int × Int))
    (hmode : st.isScribbleMode = true) (hcanvas : st.canvasPresent = true)
    (hidle : st.isDrawing = false) (hne : moves ≠ []) :
    (stepCanvasEvents
        (CanvasEvent.mouseDown p.1 p.2.1 p.2.2.1 p.2.2.2 ::
          ((moves.map fun m => CanvasEvent.mouseMove m.1 m.2.1 m.2.2.1 m.2.2.2) ++
            [CanvasEvent.mouseUp])) st).content.length
      = st.content.length + 1 ∧
    (stepCanvasEvents
        (CanvasEvent.mouseDown p.1 p.2.1 p.2.2.1 p.2.2.2 ::
          ((moves.map fun m => CanvasEvent.mouseMove m.1 m.2.1 m.2.2.1 m.2.2.2) ++
            [CanvasEvent.mouseUp])) st).isDrawing = false ∧
    (∀ (ev : CanvasEvent) (s : ScState), s.isScribbleMode = false →
      stepCanvasEvent ev s = s) := by
  obtain ⟨m, rest, rfl⟩ := List.exists_cons_of_ne_nil hne
  have hd := down_fields st p.1 p.2.1 p.2.2.1 p.2.2.2 hmode hcanvas hidle
  have hsplit : stepCanvasEvents
      (CanvasEvent.mouseDown p.1 p.2.1 p.2.2.1 p.2.2.2 ::
        (((m :: rest).map fun m => CanvasEvent.mouseMove m.1 m.2.1 m.2.2.1 m.2.2.2) ++
          [CanvasEvent.mouseUp])) st
      = stepCanvasEvent CanvasEvent.mouseUp
          (stepCanvasEvents (rest.map fun m =>
              CanvasEvent.mouseMove m.1 m.2.1 m.2.2.1 m.2.2.2)
            (stepCanvasEvent (CanvasEvent.mouseMove m.1 m.2.1 m.2.2.1 m.2.2.2)
              (stepCanvasEvent (CanvasEvent.mouseDown p.1 p.2.1 p.2.2.1 p.2.2.2) st))) := by
    simp [stepCanvasEvents, List.foldl_append]
  set st1 := stepCanvasEvent (CanvasEvent.mouseDown p.1 p.2.1 p.2.2.1 p.2.2.2) st with hst1
  have hm1 := move_paint_first st1 m.1 m.2.1 m.2.2.1 m.2.2.2 [⟨p.1 - p.2.2.1, p.2.1 - p.2.2.2⟩]
    hd.1 hd.2.1 hd.2.2.1 hd.2.2.2.1 hd.2.2.2.2.2.1 hd.2.2.2.2.1
  set st2 := stepCanvasEvent (CanvasEvent.mouseMove m.1 m.2.1 m.2.2.1 m.2.2.2) st1 with hst2
  have hst2len : st2.content.length = st.content.length + 1 := by
    rw [hm1]
    simp [hd.2.2.2.2.2.2.1]
  have hkeep := moveSteps_keep rest st2
    (by rw [hm1]; exact hd.1)
    (by rw [hm1]; exact hd.2.1)
    (by rw [hm1]; exact hd.2.2.1)
    (by rw [hm1]; exact hd.2.2.2.1)
    (by rw [hm1])
    (by rw [hm1]; exact ⟨_, rfl⟩)
    (by omega)
  set st3 := stepCanvasEvents (rest.map fun m =>
      CanvasEvent.mouseMove m.1 m.2.1 m.2.2.1 m.2.2.2) st2 with hst3
  have hup := up_fields st3 hkeep.1 hkeep.2.1 hkeep.2.2.1
  refine ⟨?_, ?_, fun ev s h => mode_off_no_receive ev s h⟩
  · rw [hsplit, hup.1, hkeep.2.2.2.2.2.2, hst2len]
  · rw [hsplit]
    exact hup.2.1

theorem scribble_one_stroke_per_down_up_witness :
    (stepCanvasEvents
        (CanvasEvent.mouseDown 0 0 0 0 ::
          ((([((1 : Int), (1 : Int), (0 : Int), (0 : Int))]).map fun m =>
              CanvasEvent.mouseMove m.1 m.2.1 m.2.2.1 m.2.2.2) ++
            [CanvasEvent.mouseUp])) initialScState).content.length
      = initialScState.content.length + 1 ∧
    (stepCanvasEvents
        (CanvasEvent.mouseDown 0 0 0 0 ::
          ((([((1 : Int), (1 : Int), (0 : Int), (0 : Int))]).map fun m =>
              CanvasEvent.mouseMove m.1 m.2.1 m.2.2.1 m.2.2.2) ++
            [CanvasEvent.mouseUp])) initialScState).isDrawing = false := by
  have h := scribble_one_stroke_per_down_up initialScState (0, 0, 0, 0)
    [((1 : Int), (1 : Int), (0 : Int), (0 : Int))] rfl rfl rfl (by decide)
  exact ⟨h.1, h.2.1⟩

/-- C4 counterexample: pressing Escape during an in-progress eraser stroke
(mode on, drawing flag set, pointer held, compositing `destination-out`)
turns scribble mode off but leaves the drawing flag, the pointer-held flag
and the compositing mode exactly as they were — the mode-toggle handler
(lines 190-224) never calls `stopDrawing`, so the tool-state machine is not
reset to idle. -/
theorem escape_does_not_reset_tool_state :
    (scribbleModeEscape { initialScState with
        isDrawing := true, isMouseDown := true,
        comp := CompOp.destinationOut }).isScribbleMode = false ∧
    (scribbleModeEscape { initialScState with
        isDrawing := true, isMouseDown := true,
        comp := CompOp.destinationOut }).isDrawing = true ∧
    (scribbleModeEscape { initialScState with
        isDrawing := true, isMouseDown := true,
        comp := CompOp.destinationOut }).isMouseDown = true ∧
    (scribbleModeEscape { initialScState with
        isDrawing := true, isMouseDown := true,
        comp := CompOp.destinationOut }).comp = CompOp.destinationOut := by
  decide

/-- C4 amended: turning scribble mode off (Escape, or Tab+S from mode on)
changes only the mode flag; it does not stop an in-progress stroke or reset
the drawing flag, pointer-held flag or compositing mode.  The stroke merely
stops extending because, with the mode off, no pointer event is delivered to
the canvas any more. -/
theorem mode_off_leaves_drawing_state (st : ScState) (h : st.isScribbleMode = true) :
    scribbleModeEscape st = { st with isScribbleMode := false } ∧
    scribbleModeToggle st = { st with isScribbleMode := false } ∧
    ∀ ev : CanvasEvent,
      stepCanvasEvent ev { st with isScribbleMode := false }
        = { st with isScribbleMode := false } := by
  refine ⟨by simp [scribbleModeEscape, h], by simp [scribbleModeToggle, h], ?_⟩
  intro ev
  exact mode_off_no_receive ev _ rfl

theorem mode_off_leaves_drawing_state_witness :
    scribbleModeEscape { initialScState with isDrawing := true }
      = { initialScState with isDrawing := true, isScribbleMode := false } ∧
    stepCanvasEvent CanvasEvent.mouseUp
        { initialScState with isDrawing := true, isScribbleMode := false }
      = { initialScState with isDrawing := true, isScribbleMode := false } := by
  have h := mode_off_leaves_drawing_state { initialScState with isDrawing := true } rfl
  exact ⟨h.1, h.2.2 CanvasEvent.mouseUp⟩

/-- C5: while scribble mode is on, holding space forces the pencil and
holding E forces the eraser, in both cases leaving the resting tool
(`backgroundState`) untouched, and releasing either key restores the active
tool (`isEraser`) to the resting tool. -/
theorem key_hold_tool_override (st : ScState) (h : st.isScribbleMode = true) :
    (spaceKeyDown st).isEraser = false ∧
    (spaceKeyDown st).backgroundState = st.backgroundState ∧
    (spaceKeyDown st).isSpaceHeld = true ∧
    (eKeyDown st).isEraser = true ∧
    (eKeyDown st).backgroundState = st.backgroundState ∧
    (eKeyDown st).isSpaceHeld = true ∧
    (spaceKeyUp st).isEraser = st.backgroundState ∧
    (spaceKeyUp st).backgroundState = st.backgroundState ∧
    (eKeyUp st).isEraser = st.backgroundState ∧
    (eKeyUp st).backgroundState = st.backgroundState := by
  have hsu := stopDrawing_frame
    { st with isEraser := st.backgroundState, isSpaceHeld := false }
  have hs : spaceKeyUp st
      = stopDrawing { st with isEraser := st.backgroundState, isSpaceHeld := false } := by
    simp [spaceKeyUp, h]
  have hek : eKeyUp st
      = stopDrawing { st with isEraser := st.backgroundState, isSpaceHeld := false } := by
    simp [eKeyUp, h]
  refine ⟨by simp [spaceKeyDown, h], by simp [spaceKeyDown, h],
    by simp [spaceKeyDown, h], by simp [eKeyDown, h], by simp [eKeyDown, h],
    by simp [eKeyDown, h], ?_, ?_, ?_, ?_⟩
  · rw [hs, hsu.1]
  · rw [hs, hsu.2.1]
  · rw [hek, hsu.1]
  · rw [hek, hsu.2.1]

theorem key_hold_tool_override_witness :
    (spaceKeyDown { initialScState with isEraser := true, backgroundState := true }).isEraser
      = false ∧
    (spaceKeyUp { initialScState with isEraser := false, backgroundState := true }).isEraser
      = true ∧
    (eKeyDown { initialScState with isEraser := false, backgroundState := false }).isEraser
      = true ∧
    (eKeyUp { initialScState with isEraser := true, backgroundState := false }).isEraser
      = false := by
  have h1 := key_hold_tool_override
    { initialScState with isEraser := true, backgroundState := true } rfl
  have h2 := key_hold_tool_override
    { initialScState with isEraser := false, backgroundState := true } rfl
  have h3 := key_hold_tool_override
    { initialScState with isEraser := false, backgroundState := false } rfl
  have h4 := key_hold_tool_override
    { initialScState with isEraser := true, backgroundState := false } rfl
  exact ⟨h1.1, h2.2.2.2.2.2.2.1, h3.2.2.2.1, h4.2.2.2.2.2.2.2.2.1⟩

/-- C8 (code bug at the snapshot step): after a completed stroke that
actually drew (down, one painting move, up — the raster gained one stroke and
drawing ended), `lastDrawnState` is still `none`: `stopDrawing` clears
`didDrawInStroke.current` before the `[isDrawing]` effect runs, so the
effect's guard is never satisfied and no snapshot is ever saved after a
stroke — contradicting the source's own comment "Save canvas state after
each stroke" (lines 35-41).  Consequently a subsequent resize whose scratch
copy is unavailable (`tempCtxOk = false`) blanks the raster. -/
theorem stroke_snapshot_never_saved :
    (stepCanvasEvents [CanvasEvent.mouseDown 0 0 0 0, CanvasEvent.mouseMove 1 1 0 0,
        CanvasEvent.mouseUp] initialScState).lastDrawnState = none ∧
    (stepCanvasEvents [CanvasEvent.mouseDown 0 0 0 0, CanvasEvent.mouseMove 1 1 0 0,
        CanvasEvent.mouseUp] initialScState).content.length = 1 ∧
    (stepCanvasEvents [CanvasEvent.mouseDown 0 0 0 0, CanvasEvent.mouseMove 1 1 0 0,
        CanvasEvent.mouseUp] initialScState).isDrawing = false ∧
    (updateCanvasSize 1 800 600 true false
        (stepCanvasEvents [CanvasEvent.mouseDown 0 0 0 0, CanvasEvent.mouseMove 1 1 0 0,
          CanvasEvent.mouseUp] initialScState)).content = [] := by
  decide

end ScribbleOverlay
